import Mathlib

set_option maxHeartbeats 1000000

/-!
Shallow embedding of the calendar filter/dedup coordination layer in
`src/web/themes/custom/distrct96_b5/libraries/fullcalendar/lib/events.js`
(the third, final source variant, lines 326-527): category normalization
(`norm`), filter state and markup re-reads (`readDefaultFromMarkup`,
`wireButtonsIfPresent`, `eventDataTransform`), control-group sync
(`updateButtonsUI`, click handlers), per-event visibility (`applyFilter`),
event-source de-duplication (`ensureSingleEventSource`) and the singleton
attach guard (`attach` with `window.__fcCalendarInstance`).

JavaScript strings are modelled as lists of character codes (`List Nat`);
`null`/`undefined`, strings and numbers reaching `norm` are modelled by
`JSVal`.  `trim`/`toLowerCase` are modelled over the ASCII range, which
covers every character class the code distinguishes (whitespace, decimal
digits, letters).
-/

namespace EventsJs

/-- Character codes of a Lean string literal, used to write concrete JS strings. -/
def jstrOf (s : String) : List Nat := s.data.map Char.toNat

/-- Whitespace test of `String.prototype.trim` (ASCII range: space, tab, LF, VT, FF, CR). -/
def isWs (c : Nat) : Bool := decide (c = 32 ∨ c = 9 ∨ c = 10 ∨ c = 13 ∨ c = 11 ∨ c = 12)

/-- One character of `String.prototype.toLowerCase` (ASCII range). -/
def lowerN (c : Nat) : Nat := if 65 ≤ c ∧ c ≤ 90 then c + 32 else c

/-- Decimal digit test, as in the regex class `\d`. -/
def isDigitN (c : Nat) : Bool := decide (48 ≤ c ∧ c ≤ 57)

/-- `String.prototype.toLowerCase`. -/
def toLowerL (l : List Nat) : List Nat := l.map lowerN

/-- `String.prototype.trim`: drop whitespace at both ends. -/
def trimL (l : List Nat) : List Nat := ((l.dropWhile isWs).reverse.dropWhile isWs).reverse

/-- First match of the regex `\d+`: the first maximal run of decimal digits, if any. -/
def firstDigitRun : List Nat → Option (List Nat)
  | [] => none
  | c :: rest => if isDigitN c then some (c :: rest.takeWhile isDigitN) else firstDigitRun rest

/-- The string literal "all". -/
def strAll : List Nat := [97, 108, 108]

/-- The string literal "auto". -/
def strAuto : List Nat := [97, 117, 116, 111]

/-- The string literal "none". -/
def strNone : List Nat := [110, 111, 110, 101]

/-- The string literal "true". -/
def strTrue : List Nat := [116, 114, 117, 101]

/-- The string literal "false". -/
def strFalse : List Nat := [102, 97, 108, 115, 101]

/-- A JavaScript value as far as `norm` is concerned: `null`/`undefined`, a string,
or a (natural) number. -/
inductive JSVal where
  | jnull
  | jstr (s : List Nat)
  | jnum (n : Nat)
deriving DecidableEq

/-- JS `String(val)` for the values `norm` can receive past its null check. -/
def jsToString : JSVal → List Nat
  | .jnull => []
  | .jstr s => s
  | .jnum n => (Nat.repr n).data.map Char.toNat

/-- Core of `norm` past the null check, from `events.js`:
`const s = String(val).trim().toLowerCase(); if (s === 'all') return 'all';
const m = s.match(/\d+/); return m ? m[0] : s;`. -/
def normCore (x : List Nat) : List Nat :=
  if toLowerL (trimL x) = strAll then strAll
  else
    match firstDigitRun (toLowerL (trimL x)) with
    | some d => d
    | none => toLowerL (trimL x)

/-- The `norm` helper of `events.js`: `if (val == null) return '';` then `normCore`. -/
def norm : JSVal → List Nat
  | .jnull => []
  | v => normCore (jsToString v)

/-- `norm` applied to a string value (the form used at every string call site). -/
def normStr (s : List Nat) : List Nat := norm (.jstr s)

theorem lowerN_idem (c : Nat) : lowerN (lowerN c) = lowerN c := by
  unfold lowerN
  split_ifs <;> omega

theorem isWs_lowerN (c : Nat) : isWs (lowerN c) = isWs c := by
  unfold isWs lowerN
  split_ifs with h
  · rw [decide_eq_decide]
    omega
  · rfl

theorem lowerN_of_digit (c : Nat) (h : isDigitN c = true) : lowerN c = c := by
  simp only [isDigitN, decide_eq_true_eq] at h
  unfold lowerN
  rw [if_neg (by omega)]

theorem not_ws_of_digit (c : Nat) (h : isDigitN c = true) : isWs c = false := by
  simp only [isDigitN, decide_eq_true_eq] at h
  simp only [isWs, decide_eq_false_iff_not]
  omega

theorem toLowerL_toLowerL (l : List Nat) : toLowerL (toLowerL l) = toLowerL l := by
  induction l with
  | nil => rfl
  | cons c t ih =>
    simp only [toLowerL, List.map_cons] at *
    rw [lowerN_idem, ih]

theorem toLowerL_of_all_digits (l : List Nat) (h : ∀ c ∈ l, isDigitN c = true) :
    toLowerL l = l := by
  induction l with
  | nil => rfl
  | cons c t ih =>
    simp only [toLowerL, List.map_cons] at *
    rw [lowerN_of_digit c (h c (by simp)), ih (fun x hx => h x (List.mem_cons_of_mem _ hx))]

theorem dropWhile_map_lowerN (l : List Nat) :
    (l.map lowerN).dropWhile isWs = (l.dropWhile isWs).map lowerN := by
  induction l with
  | nil => rfl
  | cons c t ih =>
    simp only [List.map_cons, List.dropWhile_cons, isWs_lowerN]
    cases h : isWs c with
    | false => simp
    | true => simpa using ih

theorem dropWhile_idem (p : Nat → Bool) (l : List Nat) :
    (l.dropWhile p).dropWhile p = l.dropWhile p := by
  induction l with
  | nil => rfl
  | cons c t ih =>
    cases h : p c with
    | true => simp [List.dropWhile_cons, h, ih]
    | false => simp [List.dropWhile_cons, h]

theorem length_dropWhile_le (p : Nat → Bool) (l : List Nat) :
    (l.dropWhile p).length ≤ l.length := by
  induction l with
  | nil => simp
  | cons c t ih =>
    cases h : p c with
    | true =>
      simp only [List.dropWhile_cons, h, if_true]
      exact Nat.le_trans ih (by simp)
    | false => simp [List.dropWhile_cons, h]

theorem dropWhile_append_eq (p : Nat → Bool) (r : List Nat) :
    ∃ u, r = u ++ r.dropWhile p := by
  induction r with
  | nil => exact ⟨[], rfl⟩
  | cons c t ih =>
    cases h : p c with
    | true =>
      obtain ⟨u, hu⟩ := ih
      refine ⟨c :: u, ?_⟩
      simp only [List.dropWhile_cons, h, if_true, List.cons_append]
      exact congrArg (c :: ·) hu
    | false => exact ⟨[], by simp [List.dropWhile_cons, h]⟩

theorem noWsFront_back_trim (p : Nat → Bool) (y : List Nat) (hy : y.dropWhile p = y) :
    ((y.reverse.dropWhile p).reverse).dropWhile p = (y.reverse.dropWhile p).reverse := by
  obtain ⟨u, hu⟩ := dropWhile_append_eq p y.reverse
  have hyz : y = (y.reverse.dropWhile p).reverse ++ u.reverse := by
    have h1 := congrArg List.reverse hu
    simpa [List.reverse_append] using h1
  cases hzc : (y.reverse.dropWhile p).reverse with
  | nil => simp
  | cons c z2 =>
    have hpc : p c = false := by
      cases hpcv : p c with
      | false => rfl
      | true =>
        exfalso
        rw [hzc] at hyz
        have h1 : y.dropWhile p = (z2 ++ u.reverse).dropWhile p := by
          rw [hyz]
          simp [List.dropWhile_cons, hpcv]
        rw [hy] at h1
        have h2 : ((z2 ++ u.reverse).dropWhile p).length ≤ (z2 ++ u.reverse).length :=
          length_dropWhile_le p _
        rw [← h1] at h2
        have h3 : y.length = (z2 ++ u.reverse).length + 1 := by
          rw [hyz]; simp
        omega
    simp [List.dropWhile_cons, hpc]

theorem trimL_trimL (l : List Nat) : trimL (trimL l) = trimL l := by
  have hfront : (trimL l).dropWhile isWs = trimL l :=
    noWsFront_back_trim isWs (l.dropWhile isWs) (dropWhile_idem isWs l)
  show (((trimL l).dropWhile isWs).reverse.dropWhile isWs).reverse = trimL l
  rw [hfront]
  have hrev : (trimL l).reverse = (l.dropWhile isWs).reverse.dropWhile isWs := by
    unfold trimL
    exact List.reverse_reverse _
  rw [hrev, dropWhile_idem, ← hrev, List.reverse_reverse]

theorem trimL_toLowerL (l : List Nat) : trimL (toLowerL l) = toLowerL (trimL l) := by
  unfold trimL toLowerL
  rw [dropWhile_map_lowerN, ← List.map_reverse, dropWhile_map_lowerN, ← List.map_reverse]

theorem trimL_of_all_not_ws (l : List Nat) (h : ∀ c ∈ l, isWs c = false) : trimL l = l := by
  have h1 : l.dropWhile isWs = l := by
    cases l with
    | nil => rfl
    | cons c t => simp [List.dropWhile_cons, h c (by simp)]
  unfold trimL
  rw [h1]
  have h2 : l.reverse.dropWhile isWs = l.reverse := by
    cases hr : l.reverse with
    | nil => rfl
    | cons c t =>
      have hc : c ∈ l := by
        have : c ∈ l.reverse := by rw [hr]; simp
        simpa using this
      simp [List.dropWhile_cons, h c hc]
  rw [h2, List.reverse_reverse]

theorem mem_takeWhile_digit {l : List Nat} {c : Nat} (h : c ∈ l.takeWhile isDigitN) :
    isDigitN c = true := by
  induction l with
  | nil => simp [List.takeWhile] at h
  | cons a t ih =>
    by_cases ha : isDigitN a = true
    · rw [List.takeWhile_cons, if_pos ha] at h
      rcases List.mem_cons.mp h with h1 | h2
      · rw [h1]; exact ha
      · exact ih h2
    · rw [List.takeWhile_cons, if_neg ha] at h
      simp at h

theorem takeWhile_digits_eq_self {l : List Nat} (h : ∀ c ∈ l, isDigitN c = true) :
    l.takeWhile isDigitN = l := by
  induction l with
  | nil => rfl
  | cons c t ih =>
    rw [List.takeWhile_cons, if_pos (h c (by simp))]
    rw [ih (fun x hx => h x (List.mem_cons_of_mem _ hx))]

theorem firstDigitRun_some {l d : List Nat} (h : firstDigitRun l = some d) :
    d ≠ [] ∧ ∀ c ∈ d, isDigitN c = true := by
  induction l with
  | nil => simp [firstDigitRun] at h
  | cons c t ih =>
    by_cases hc : isDigitN c = true
    · rw [firstDigitRun, if_pos hc] at h
      injection h with h
      subst h
      refine ⟨by simp, ?_⟩
      intro x hx
      rcases List.mem_cons.mp hx with h1 | h2
      · rw [h1]; exact hc
      · exact mem_takeWhile_digit h2
    · rw [firstDigitRun, if_neg hc] at h
      exact ih h

theorem firstDigitRun_of_all_digits {l : List Nat} (hne : l ≠ [])
    (h : ∀ c ∈ l, isDigitN c = true) : firstDigitRun l = some l := by
  cases l with
  | nil => exact absurd rfl hne
  | cons c t =>
    rw [firstDigitRun, if_pos (h c (by simp))]
    rw [takeWhile_digits_eq_self (fun x hx => h x (List.mem_cons_of_mem _ hx))]

theorem trimL_lower_fix (x : List Nat) :
    trimL (toLowerL (trimL x)) = toLowerL (trimL x) := by
  rw [trimL_toLowerL, trimL_trimL]

theorem normCore_all : normCore strAll = strAll := by decide

theorem normCore_of_digit_run (d : List Nat) (hne : d ≠ [])
    (hd : ∀ c ∈ d, isDigitN c = true) : normCore d = d := by
  have ht : trimL d = d := trimL_of_all_not_ws d (fun c hc => not_ws_of_digit c (hd c hc))
  have hl : toLowerL d = d := toLowerL_of_all_digits d hd
  have hda : d ≠ strAll := by
    intro he
    have h97 : isDigitN 97 = true := hd 97 (by rw [he]; simp [strAll])
    simp [isDigitN] at h97
  unfold normCore
  rw [ht, hl, if_neg hda, firstDigitRun_of_all_digits hne hd]

theorem normCore_fallback (s : List Nat) (hs : trimL s = s) (hl : toLowerL s = s)
    (hall : s ≠ strAll) (hnone : firstDigitRun s = none) : normCore s = s := by
  unfold normCore
  rw [hs, hl, if_neg hall, hnone]

theorem normCore_idem (x : List Nat) : normCore (normCore x) = normCore x := by
  by_cases hall : toLowerL (trimL x) = strAll
  · have h1 : normCore x = strAll := by unfold normCore; rw [if_pos hall]
    rw [h1, normCore_all]
  · cases hf : firstDigitRun (toLowerL (trimL x)) with
    | some d =>
      have h1 : normCore x = d := by unfold normCore; rw [if_neg hall, hf]
      obtain ⟨hne, hd⟩ := firstDigitRun_some hf
      rw [h1, normCore_of_digit_run d hne hd]
    | none =>
      have h1 : normCore x = toLowerL (trimL x) := by unfold normCore; rw [if_neg hall, hf]
      rw [h1]
      exact normCore_fallback _ (trimL_lower_fix x) (toLowerL_toLowerL _) hall hf

/-- C4: `norm` is idempotent — `norm (norm x) = norm x` for every input — and total,
returning a defined string on every input including `null`, `""`, `"ALL"`,
`"category-904"`, the number `904` and `"abc"`. -/
theorem norm_idempotent_total :
    (∀ v : JSVal, normStr (norm v) = norm v)
    ∧ norm .jnull = []
    ∧ normStr (jstrOf "") = []
    ∧ normStr (jstrOf "ALL") = strAll
    ∧ normStr (jstrOf "category-904") = jstrOf "904"
    ∧ norm (.jnum 904) = jstrOf "904"
    ∧ normStr (jstrOf "abc") = jstrOf "abc" := by
  refine ⟨?_, by decide, by decide, by decide, by decide, by decide, by decide⟩
  intro v
  cases v with
  | jnull => decide
  | jstr s => exact normCore_idem s
  | jnum n => exact normCore_idem _

/-- The first run of decimal digits, written the way the spec describes it:
skip to the first digit, then take the maximal digit run from there. -/
def firstRunSpec (l : List Nat) : List Nat :=
  (l.dropWhile (fun c => !isDigitN c)).takeWhile isDigitN

theorem firstDigitRun_eq_spec (l : List Nat) :
    firstDigitRun l = if l.any isDigitN then some (firstRunSpec l) else none := by
  induction l with
  | nil => rfl
  | cons c t ih =>
    cases hc : isDigitN c with
    | true =>
      rw [firstDigitRun, if_pos hc]
      have hany : (c :: t).any isDigitN = true := by simp [hc]
      rw [if_pos hany]
      unfold firstRunSpec
      rw [List.dropWhile_cons]
      rw [if_neg (by simp [hc])]
      rw [List.takeWhile_cons, if_pos hc]
    | false =>
      rw [firstDigitRun, if_neg (show ¬ isDigitN c = true by simp [hc]), ih]
      have hany : (c :: t).any isDigitN = t.any isDigitN := by simp [hc]
      have hdw : firstRunSpec (c :: t) = firstRunSpec t := by
        unfold firstRunSpec
        rw [List.dropWhile_cons, if_pos (show (!isDigitN c) = true by simp [hc])]
      rw [hany, hdw]

/-- The spec's description of `normalize`, written as its own function: null/empty
give the empty key, `"all"` is a sentinel, a string containing digits anywhere maps
to its first digit run, and otherwise the trimmed lowercased string is the key. -/
def normSpecCore (x : List Nat) : List Nat :=
  if toLowerL (trimL x) = [] then []
  else if toLowerL (trimL x) = strAll then strAll
  else if (toLowerL (trimL x)).any isDigitN then firstRunSpec (toLowerL (trimL x))
  else toLowerL (trimL x)

/-- The spec's `normalize`, over the same inputs as `norm`. -/
def normSpec : JSVal → List Nat
  | .jnull => []
  | v => normSpecCore (jsToString v)

theorem normCore_eq_specCore (x : List Nat) : normCore x = normSpecCore x := by
  unfold normCore normSpecCore
  by_cases hall : toLowerL (trimL x) = strAll
  · rw [if_pos hall, hall, if_neg (by decide : ¬(strAll = [])), if_pos rfl]
  · rw [if_neg hall, firstDigitRun_eq_spec]
    by_cases hd : (toLowerL (trimL x)).any isDigitN = true
    · rw [if_pos hd]
      have hne : toLowerL (trimL x) ≠ [] := by
        intro h
        rw [h] at hd
        simp at hd
      rw [if_neg hne, if_neg hall, if_pos hd]
    · rw [if_neg hd]
      by_cases hne : toLowerL (trimL x) = []
      · rw [hne]
        simp
      · rw [if_neg hne, if_neg hall, if_neg hd]

/-- C5: `norm` agrees everywhere with the spec's case description of normalization
(null and whitespace-only inputs give the empty key, `"all"` maps to `"all"`, a
string with digits anywhere maps to its first digit run, anything else maps to its
trimmed lowercased self), and `"category-904"`, `"904"` and the number `904` all
normalize to `"904"`. -/
theorem norm_matches_spec :
    (∀ v : JSVal, norm v = normSpec v)
    ∧ normStr (jstrOf "category-904") = jstrOf "904"
    ∧ normStr (jstrOf "904") = jstrOf "904"
    ∧ norm (.jnum 904) = jstrOf "904"
    ∧ normStr (jstrOf "   ") = []
    ∧ norm .jnull = [] := by
  refine ⟨?_, by decide, by decide, by decide, by decide, by decide⟩
  intro v
  cases v with
  | jnull => rfl
  | jstr s => exact normCore_eq_specCore s
  | jnum n => exact normCore_eq_specCore _

/-- The `extendedProps` object of an event: the three category fields consulted by
the coalescing chain `extendedProps.category ?? extendedProps.Category ??
extendedProps.type`.  An absent or `null` field is `jnull`. -/
structure ExtProps where
  category : JSVal
  Category : JSVal
  type : JSVal
deriving DecidableEq

/-- An event record as the filter code sees it: the optional `extendedProps`
object, the raw fallback fields `category` and `className`, and the `display`
flag the filter writes. -/
structure RawEvent where
  extendedProps : Option ExtProps
  category : JSVal
  className : JSVal
  display : List Nat
deriving DecidableEq

/-- JS nullish coalescing `a ?? b`. -/
def nn (a b : JSVal) : JSVal :=
  match a with
  | .jnull => b
  | _ => a

/-- The value of `ev.extendedProps && (ev.extendedProps.category ??
ev.extendedProps.Category ?? ev.extendedProps.type)`: a falsy (absent)
`extendedProps` short-circuits to a nullish value. -/
def epVal (ev : RawEvent) : JSVal :=
  match ev.extendedProps with
  | some ep => nn ep.category (nn ep.Category ep.type)
  | none => .jnull

/-- Category value consulted by `eventDataTransform`:
`(raw.extendedProps && (...)) ?? raw.category ?? raw.className`. -/
def transformCategoryVal (raw : RawEvent) : JSVal :=
  nn (epVal raw) (nn raw.category raw.className)

/-- Category value consulted by `applyFilter`:
`(ev.extendedProps && (...)) ?? ''`. -/
def applyCategoryVal (ev : RawEvent) : JSVal :=
  nn (epVal ev) (.jstr [])

/-- The display flag computed by `eventDataTransform` for one raw record:
`show = (activeCategory === 'all') || (evCat === activeCategory)`. -/
def eventDisplayTransform (activeCategory : List Nat) (raw : RawEvent) : List Nat :=
  if activeCategory = strAll ∨ norm (transformCategoryVal raw) = activeCategory
  then strAuto else strNone

/-- The display flag `applyFilter` assigns to one event. -/
def applyFilterDisplay (activeCategory : List Nat) (ev : RawEvent) : List Nat :=
  if activeCategory = strAll ∨ norm (applyCategoryVal ev) = activeCategory
  then strAuto else strNone

/-- `applyFilter`: for every current event, set `display` to `'auto'` when the
event passes the active-category test and `'none'` otherwise (the
`batchRendering` wrapper only batches the re-render and does not change which
flags are written). -/
def applyFilter (activeCategory : List Nat) (evs : List RawEvent) : List RawEvent :=
  evs.map fun ev => { ev with display := applyFilterDisplay activeCategory ev }

/-- C1: `applyFilter` with active category A sets each event's display to
`'auto'` iff A is `"all"` or the event's normalized category equals A, and to
`'none'` otherwise, for every event of the current list. -/
theorem applyFilter_display_iff (active : List Nat) (evs : List RawEvent) (i : Nat)
    (h1 : i < evs.length) (h2 : i < (applyFilter active evs).length) :
    (((applyFilter active evs).get ⟨i, h2⟩).display = strAuto ↔
      (active = strAll ∨ norm (applyCategoryVal (evs.get ⟨i, h1⟩)) = active))
    ∧ (((applyFilter active evs).get ⟨i, h2⟩).display = strNone ↔
      ¬(active = strAll ∨ norm (applyCategoryVal (evs.get ⟨i, h1⟩)) = active)) := by
  have hget : (applyFilter active evs).get ⟨i, h2⟩ =
      { evs.get ⟨i, h1⟩ with display := applyFilterDisplay active (evs.get ⟨i, h1⟩) } := by
    simp [applyFilter, List.get_eq_getElem, List.getElem_map]
  rw [hget]
  show (applyFilterDisplay active (evs.get ⟨i, h1⟩) = strAuto ↔ _)
    ∧ (applyFilterDisplay active (evs.get ⟨i, h1⟩) = strNone ↔ _)
  unfold applyFilterDisplay
  by_cases h : active = strAll ∨ norm (applyCategoryVal (evs.get ⟨i, h1⟩)) = active
  · rw [if_pos h]
    exact ⟨⟨fun _ => h, fun _ => rfl⟩,
      ⟨fun hh => absurd hh (by decide), fun hh => absurd h hh⟩⟩
  · rw [if_neg h]
    exact ⟨⟨fun hh => absurd hh (by decide), fun hh => absurd hh h⟩,
      ⟨fun _ => h, fun _ => rfl⟩⟩

/-- Concrete event for the C1 witness: category `904` under `extendedProps.category`. -/
def c1Ev : RawEvent :=
  { extendedProps := some { category := .jnum 904, Category := .jnull, type := .jnull },
    category := .jnull, className := .jnull, display := [] }

theorem applyFilter_display_iff_witness :
    (((applyFilter (jstrOf "904") [c1Ev]).get ⟨0, by decide⟩).display = strAuto ↔
      (jstrOf "904" = strAll ∨
        norm (applyCategoryVal (([c1Ev] : List RawEvent).get ⟨0, by decide⟩)) = jstrOf "904"))
    ∧ (((applyFilter (jstrOf "904") [c1Ev]).get ⟨0, by decide⟩).display = strNone ↔
      ¬(jstrOf "904" = strAll ∨
        norm (applyCategoryVal (([c1Ev] : List RawEvent).get ⟨0, by decide⟩)) = jstrOf "904")) :=
  applyFilter_display_iff (jstrOf "904") [c1Ev] 0 (by decide) (by decide)

/-- C2 (amended): the pre-render transform, the post-load re-application and the
post-click re-application assign the same display flag to an event whenever the
event's category is carried under `extendedProps` (the coalescing chain over
`extendedProps` is non-nullish) or the event has no fallback category at all;
the two `applyFilter` call sites are the same function, so they always agree.
Events whose category is carried only under the fallback fields `raw.category`
or `raw.className` can receive different flags from the transform and from
`applyFilter` (see the counterexample). -/
theorem transform_apply_display_agree (active : List Nat) (ev : RawEvent)
    (h : epVal ev ≠ .jnull ∨ (ev.category = .jnull ∧ ev.className = .jnull)) :
    eventDisplayTransform active ev = applyFilterDisplay active ev := by
  have hval : norm (transformCategoryVal ev) = norm (applyCategoryVal ev) := by
    rcases h with h | ⟨h1, h2⟩
    · cases he : epVal ev with
      | jnull => exact absurd he h
      | jstr s => simp [transformCategoryVal, applyCategoryVal, nn, he]
      | jnum n => simp [transformCategoryVal, applyCategoryVal, nn, he]
    · cases he : epVal ev with
      | jnull =>
        rw [transformCategoryVal, applyCategoryVal, he, h1, h2]
        decide
      | jstr s => simp [transformCategoryVal, applyCategoryVal, nn, he]
      | jnum n => simp [transformCategoryVal, applyCategoryVal, nn, he]
  unfold eventDisplayTransform applyFilterDisplay
  rw [hval]

/-- Concrete event for the C2 witness: category under `extendedProps.category`. -/
def c2GoodEv : RawEvent :=
  { extendedProps :=
      some { category := .jstr (jstrOf "category-904"), Category := .jnull, type := .jnull },
    category := .jnull, className := .jnull, display := [] }

theorem transform_apply_display_agree_witness :
    (epVal c2GoodEv ≠ .jnull ∨ (c2GoodEv.category = .jnull ∧ c2GoodEv.className = .jnull))
    ∧ eventDisplayTransform (jstrOf "904") c2GoodEv
        = applyFilterDisplay (jstrOf "904") c2GoodEv :=
  ⟨by decide, transform_apply_display_agree (jstrOf "904") c2GoodEv (by decide)⟩

/-- Concrete event refuting C2 as stated: the category is carried only under the
fallback field `className`. -/
def c2Ev : RawEvent :=
  { extendedProps := none, category := .jnull, className := .jstr (jstrOf "category-904"),
    display := [] }

theorem transform_apply_display_counterexample :
    eventDisplayTransform (jstrOf "904") c2Ev = strAuto
    ∧ applyFilterDisplay (jstrOf "904") c2Ev = strNone
    ∧ (applyFilter (jstrOf "904") [c2Ev]).map (fun ev => ev.display) = [strNone]
    ∧ strAuto ≠ strNone := by decide

/-- A filter toggle control: the `data-cat` attribute (absent or a string), the
`active` class, the two bootstrap classes, the `aria-pressed` attribute value and
the `data-wired` marker. -/
structure Button where
  dataCat : Option (List Nat)
  activeClass : Bool
  btnPrimary : Bool
  btnOutlinePrimary : Bool
  ariaPressed : List Nat
  wired : Bool
deriving DecidableEq

/-- The part of the document the filter code reads: whether `#filterEventsGroup`
exists and its `.fc-filter-btn` controls in document order. -/
structure FilterDom where
  groupPresent : Bool
  buttons : List Button
deriving DecidableEq

/-- The closure state of the widget: `activeCategoryRaw`, `activeCategory` and
`buttonsWired`. -/
structure WidgetState where
  activeCategoryRaw : List Nat
  activeCategory : List Nat
  buttonsWired : Bool
deriving DecidableEq

/-- JS `x || 'all'` applied to a `getAttribute('data-cat')` result: a missing
attribute (`null`) and the empty string are both falsy and give `'all'`. -/
def orAll : Option (List Nat) → List Nat
  | none => strAll
  | some s => if s = [] then strAll else s

/-- The normalized category a control contributes everywhere it is compared:
`norm(btn.getAttribute('data-cat') || 'all')`. -/
def btnNormCat (b : Button) : List Nat := normStr (orAll b.dataCat)

/-- `updateButtonsUI(group)`: every control's selected visual state becomes
`norm(catRaw) === activeCategory`, the bootstrap classes mirror it, and
`aria-pressed` is set to `'true'`/`'false'` accordingly. -/
def updateButtonsUI (buttons : List Button) (activeCategory : List Nat) : List Button :=
  buttons.map fun btn =>
    { btn with
        activeClass := decide (normStr (orAll btn.dataCat) = activeCategory),
        btnPrimary := decide (normStr (orAll btn.dataCat) = activeCategory),
        btnOutlinePrimary := !decide (normStr (orAll btn.dataCat) = activeCategory),
        ariaPressed :=
          if normStr (orAll btn.dataCat) = activeCategory then strTrue else strFalse }

/-- `readDefaultFromMarkup()`: `null` when the group is absent, else the
`data-cat` of the first control with the `active` class (with the `|| 'all'`
fallback), or `'all'` when no control is marked active. -/
def readDefaultFromMarkup (dom : FilterDom) : Option (List Nat) :=
  if dom.groupPresent then
    match dom.buttons.find? (fun b => b.activeClass) with
    | some btn => some (orAll btn.dataCat)
    | none => some strAll
  else none

/-- The repeated idiom `const fromMarkup = readDefaultFromMarkup();
if (fromMarkup) { activeCategoryRaw = fromMarkup; activeCategory = norm(...); }`
(a JS string is truthy iff non-empty). -/
def rereadActiveFromMarkup (dom : FilterDom) (st : WidgetState) : WidgetState :=
  match readDefaultFromMarkup dom with
  | some fromMarkup =>
      if fromMarkup = [] then st
      else { st with activeCategoryRaw := fromMarkup, activeCategory := normStr fromMarkup }
  | none => st

/-- `wireButtonsIfPresent()`: returns false when the group is absent; otherwise
re-reads the default from markup when the buttons are not yet wired, marks every
control wired (attaching its click handler), syncs the UI, sets `buttonsWired`
and returns true. -/
def wireButtonsIfPresent (dom : FilterDom) (st : WidgetState) :
    FilterDom × WidgetState × Bool :=
  if dom.groupPresent then
    let st1 := if st.buttonsWired then st else rereadActiveFromMarkup dom st
    let wiredButtons := dom.buttons.map (fun b => { b with wired := true })
    ({ dom with buttons := updateButtonsUI wiredButtons st1.activeCategory },
      { st1 with buttonsWired := true }, true)
  else (dom, st, false)

/-- The active category consulted by `applyFilter()` inside `loading(false)`,
which first runs `wireButtonsIfPresent()` (and `ensureSingleEventSource()`,
which does not touch the filter state). -/
def loadingConsultedCategory (dom : FilterDom) (st : WidgetState) : List Nat :=
  (wireButtonsIfPresent dom st).2.1.activeCategory

/-- `eventDataTransform(raw)`: re-read the active category from markup, then
return a copy of the record with the computed `display` flag. -/
def eventDataTransform (dom : FilterDom) (st : WidgetState) (raw : RawEvent) :
    WidgetState × RawEvent :=
  (rereadActiveFromMarkup dom st,
    { raw with
        display := eventDisplayTransform (rereadActiveFromMarkup dom st).activeCategory raw })

/-- The click handler wired to a control: store `data-cat || 'all'` raw and
normalized, then `updateButtonsUI(group)` (the following `applyFilter()` call
does not touch buttons or the stored category). -/
def clickStep (dom : FilterDom) (st : WidgetState) (i : Nat) : FilterDom × WidgetState :=
  match dom.buttons[i]? with
  | none => (dom, st)
  | some btn =>
      ({ dom with buttons := updateButtonsUI dom.buttons (normStr (orAll btn.dataCat)) },
        { st with
            activeCategoryRaw := orAll btn.dataCat,
            activeCategory := normStr (orAll btn.dataCat) })

/-- A sequence of clicks on the controls at the given indices. -/
def afterClicks (dom : FilterDom) (st : WidgetState) : List Nat → FilterDom × WidgetState
  | [] => (dom, st)
  | i :: rest => afterClicks (clickStep dom st i).1 (clickStep dom st i).2 rest

theorem orAll_ne_nil (o : Option (List Nat)) : orAll o ≠ [] := by
  cases o with
  | none => decide
  | some s =>
    show (if s = [] then strAll else s) ≠ []
    by_cases h : s = []
    · rw [if_pos h]; decide
    · rw [if_neg h]; exact h

theorem readDefault_ne_nil {dom : FilterDom} {fm : List Nat}
    (h : readDefaultFromMarkup dom = some fm) : fm ≠ [] := by
  unfold readDefaultFromMarkup at h
  by_cases hg : dom.groupPresent = true
  · rw [if_pos hg] at h
    cases hf : dom.buttons.find? (fun b => b.activeClass) with
    | some btn =>
      rw [hf] at h
      injection h with h
      rw [← h]
      exact orAll_ne_nil _
    | none =>
      rw [hf] at h
      injection h with h
      rw [← h]
      decide
  · rw [if_neg hg] at h
    cases h

theorem readDefault_group {dom : FilterDom} {fm : List Nat}
    (h : readDefaultFromMarkup dom = some fm) : dom.groupPresent = true := by
  by_cases hg : dom.groupPresent = true
  · exact hg
  · unfold readDefaultFromMarkup at h
    rw [if_neg hg] at h
    cases h

theorem rereadActive_of_some {dom : FilterDom} {fm : List Nat} (st : WidgetState)
    (h : readDefaultFromMarkup dom = some fm) :
    (rereadActiveFromMarkup dom st).activeCategory = normStr fm := by
  unfold rereadActiveFromMarkup
  rw [h]
  show (if fm = [] then st
    else { st with activeCategoryRaw := fm, activeCategory := normStr fm }).activeCategory
    = normStr fm
  rw [if_neg (readDefault_ne_nil h)]

/-- C3 (amended): at every pre-render transform invocation the consulted active
category is the normalization of the value freshly re-read from markup whenever
the control group is present; inside the loading callback this holds only while
the buttons are not yet wired (`buttonsWired` false) — once they are wired, the
loading path consults the stored value (see the counterexample). -/
theorem transform_rereads_loading_only_unwired (dom : FilterDom) (st : WidgetState)
    (raw : RawEvent) (fm : List Nat) (h : readDefaultFromMarkup dom = some fm) :
    (eventDataTransform dom st raw).1.activeCategory = normStr fm
    ∧ (st.buttonsWired = false → loadingConsultedCategory dom st = normStr fm) := by
  constructor
  · show (rereadActiveFromMarkup dom st).activeCategory = normStr fm
    exact rereadActive_of_some st h
  · intro hw
    unfold loadingConsultedCategory wireButtonsIfPresent
    rw [if_pos (readDefault_group h)]
    show (if st.buttonsWired then st else rereadActiveFromMarkup dom st).activeCategory
      = normStr fm
    rw [if_neg (by rw [hw]; exact Bool.false_ne_true)]
    exact rereadActive_of_some st h

/-- Concrete state refuting C3 as stated: the buttons are already wired, the
markup's active control says `category-904`, but the stored (and consulted)
category is `3`. -/
def c3Dom : FilterDom :=
  { groupPresent := true,
    buttons :=
      [{ dataCat := some (jstrOf "category-904"), activeClass := true,
         btnPrimary := true, btnOutlinePrimary := false, ariaPressed := strTrue,
         wired := true }] }

/-- Stored state for the C3 counterexample (buttons already wired). -/
def c3St : WidgetState :=
  { activeCategoryRaw := jstrOf "category-3", activeCategory := jstrOf "3",
    buttonsWired := true }

theorem loading_stale_category_counterexample :
    readDefaultFromMarkup c3Dom = some (jstrOf "category-904")
    ∧ c3Dom.groupPresent = true
    ∧ loadingConsultedCategory c3Dom c3St ≠ normStr (jstrOf "category-904") := by decide

/-- State for the C3 witness: buttons not yet wired. -/
def c3WSt : WidgetState :=
  { activeCategoryRaw := strAll, activeCategory := strAll, buttonsWired := false }

/-- Raw record for the C3 witness. -/
def c3Raw : RawEvent :=
  { extendedProps := none, category := .jnull, className := .jnull, display := [] }

theorem transform_rereads_loading_only_unwired_witness :
    (readDefaultFromMarkup c3Dom = some (jstrOf "category-904"))
    ∧ ((eventDataTransform c3Dom c3WSt c3Raw).1.activeCategory
          = normStr (jstrOf "category-904")
        ∧ (c3WSt.buttonsWired = false →
            loadingConsultedCategory c3Dom c3WSt = normStr (jstrOf "category-904"))) :=
  ⟨by decide,
    transform_rereads_loading_only_unwired c3Dom c3WSt c3Raw (jstrOf "category-904")
      (by decide)⟩

/-- The single-select claim exactly as stated: exactly one control selected (or
zero, if no control's normalized `data-cat` matches the stored active category),
every selected control's normalized category equals the stored active category,
and `aria-pressed` is `"true"` iff the control is selected. -/
def singleSelectClaim (dom : FilterDom) (st : WidgetState) : Prop :=
  ((dom.buttons.filter (fun b => b.activeClass)).length = 1
      ∧ (∀ b ∈ dom.buttons, b.activeClass = true → btnNormCat b = st.activeCategory)
      ∧ (∀ b ∈ dom.buttons, b.ariaPressed = if b.activeClass then strTrue else strFalse))
  ∨ ((∀ b ∈ dom.buttons, btnNormCat b ≠ st.activeCategory)
      ∧ (dom.buttons.filter (fun b => b.activeClass)).length = 0
      ∧ (∀ b ∈ dom.buttons, b.ariaPressed = if b.activeClass then strTrue else strFalse))

/-- The single-select invariant that does hold after a click when the controls'
normalized categories are pairwise distinct. -/
def singleSelectInvariant (dom : FilterDom) (st : WidgetState) : Prop :=
  (dom.buttons.filter (fun b => b.activeClass)).length = 1
  ∧ (∀ b ∈ dom.buttons, b.activeClass = true → btnNormCat b = st.activeCategory)
  ∧ (∀ b ∈ dom.buttons, b.ariaPressed = if b.activeClass then strTrue else strFalse)

/-- Two controls whose `data-cat` values differ but normalize to the same key. -/
def c6Btn1 : Button :=
  { dataCat := some (jstrOf "904"), activeClass := false, btnPrimary := false,
    btnOutlinePrimary := true, ariaPressed := strFalse, wired := true }

/-- Second control of the C6 counterexample. -/
def c6Btn2 : Button :=
  { dataCat := some (jstrOf "category-904"), activeClass := false, btnPrimary := false,
    btnOutlinePrimary := true, ariaPressed := strFalse, wired := true }

/-- Control group of the C6 counterexample. -/
def c6Dom : FilterDom := { groupPresent := true, buttons := [c6Btn1, c6Btn2] }

/-- Initial state of the C6 counterexample. -/
def c6St : WidgetState :=
  { activeCategoryRaw := strAll, activeCategory := strAll, buttonsWired := true }

theorem single_select_counterexample :
    ¬ singleSelectClaim (clickStep c6Dom c6St 0).1 (clickStep c6Dom c6St 0).2 := by
  unfold singleSelectClaim
  decide

theorem updateButtonsUI_selected_count (bs : List Button) (A : List Nat) :
    ((updateButtonsUI bs A).filter (fun b => b.activeClass)).length
      = bs.countP (fun b => decide (btnNormCat b = A)) := by
  rw [← List.countP_eq_length_filter]
  unfold updateButtonsUI
  rw [List.countP_map]
  rfl

theorem updateButtonsUI_map_normcat (bs : List Button) (A : List Nat) :
    (updateButtonsUI bs A).map btnNormCat = bs.map btnNormCat := by
  induction bs with
  | nil => rfl
  | cons b t ih =>
    show btnNormCat _ :: (updateButtonsUI t A).map btnNormCat = btnNormCat b :: t.map btnNormCat
    rw [ih]
    rfl

theorem updateButtonsUI_length (bs : List Button) (A : List Nat) :
    (updateButtonsUI bs A).length = bs.length := List.length_map bs _

theorem countP_eq_one_of_nodup {A : List Nat} (L : List (List Nat)) (hnd : L.Nodup)
    (hmem : A ∈ L) : L.countP (fun x => decide (x = A)) = 1 := by
  induction L with
  | nil => simp at hmem
  | cons x t ih =>
    rw [List.countP_cons]
    rcases List.mem_cons.mp hmem with h | h
    · have hx : x ∉ t := (List.nodup_cons.mp hnd).1
      have h0 : t.countP (fun y => decide (y = A)) = 0 := by
        rw [List.countP_eq_zero]
        intro y hy
        simp only [decide_eq_true_eq]
        intro he
        exact hx (h ▸ he ▸ hy)
      rw [h0, ← h]
      simp
    · have hx : ¬(x = A) := by
        intro he
        rw [he] at hnd
        exact (List.nodup_cons.mp hnd).1 h
      rw [ih (List.nodup_cons.mp hnd).2 h]
      simp [hx]

theorem clickStep_invariant (dom : FilterDom) (st : WidgetState) (i : Nat)
    (hnd : (dom.buttons.map btnNormCat).Nodup) (hi : i < dom.buttons.length) :
    singleSelectInvariant (clickStep dom st i).1 (clickStep dom st i).2 := by
  have hsome : dom.buttons[i]? = some (dom.buttons.get ⟨i, hi⟩) := by
    rw [List.getElem?_eq_getElem hi]
    rw [List.get_eq_getElem]
  unfold clickStep
  rw [hsome]
  refine ⟨?_, ?_, ?_⟩
  · show ((updateButtonsUI dom.buttons _).filter (fun b => b.activeClass)).length = 1
    rw [updateButtonsUI_selected_count]
    have hc : dom.buttons.countP
          (fun b => decide (btnNormCat b = normStr (orAll (dom.buttons.get ⟨i, hi⟩).dataCat)))
        = (dom.buttons.map btnNormCat).countP
          (fun x => decide (x = btnNormCat (dom.buttons.get ⟨i, hi⟩))) := by
      rw [List.countP_map]
      rfl
    rw [hc]
    exact countP_eq_one_of_nodup _ hnd
      (List.mem_map_of_mem btnNormCat (List.get_mem dom.buttons i hi))
  · intro b hb hbact
    show btnNormCat b = normStr (orAll (dom.buttons.get ⟨i, hi⟩).dataCat)
    have hb2 : b ∈ dom.buttons.map
        (fun btn =>
          { btn with
              activeClass := decide (normStr (orAll btn.dataCat)
                = normStr (orAll (dom.buttons.get ⟨i, hi⟩).dataCat)),
              btnPrimary := decide (normStr (orAll btn.dataCat)
                = normStr (orAll (dom.buttons.get ⟨i, hi⟩).dataCat)),
              btnOutlinePrimary := !decide (normStr (orAll btn.dataCat)
                = normStr (orAll (dom.buttons.get ⟨i, hi⟩).dataCat)),
              ariaPressed :=
                if normStr (orAll btn.dataCat)
                    = normStr (orAll (dom.buttons.get ⟨i, hi⟩).dataCat)
                then strTrue else strFalse }) := hb
    obtain ⟨b0, hb0, hbeq⟩ := List.mem_map.mp hb2
    rw [← hbeq] at hbact ⊢
    have hdec := of_decide_eq_true hbact
    exact hdec
  · intro b hb
    have hb2 : b ∈ dom.buttons.map
        (fun btn =>
          { btn with
              activeClass := decide (normStr (orAll btn.dataCat)
                = normStr (orAll (dom.buttons.get ⟨i, hi⟩).dataCat)),
              btnPrimary := decide (normStr (orAll btn.dataCat)
                = normStr (orAll (dom.buttons.get ⟨i, hi⟩).dataCat)),
              btnOutlinePrimary := !decide (normStr (orAll btn.dataCat)
                = normStr (orAll (dom.buttons.get ⟨i, hi⟩).dataCat)),
              ariaPressed :=
                if normStr (orAll btn.dataCat)
                    = normStr (orAll (dom.buttons.get ⟨i, hi⟩).dataCat)
                then strTrue else strFalse }) := hb
    obtain ⟨b0, hb0, hbeq⟩ := List.mem_map.mp hb2
    rw [← hbeq]
    by_cases h : normStr (orAll b0.dataCat) = normStr (orAll (dom.buttons.get ⟨i, hi⟩).dataCat)
    · simp [h]
    · simp [h]

theorem clickStep_map_normcat (dom : FilterDom) (st : WidgetState) (i : Nat) :
    (clickStep dom st i).1.buttons.map btnNormCat = dom.buttons.map btnNormCat := by
  unfold clickStep
  cases h : dom.buttons[i]? with
  | none => rfl
  | some btn =>
    show (updateButtonsUI dom.buttons _).map btnNormCat = _
    exact updateButtonsUI_map_normcat _ _

theorem clickStep_length (dom : FilterDom) (st : WidgetState) (i : Nat) :
    (clickStep dom st i).1.buttons.length = dom.buttons.length := by
  unfold clickStep
  cases h : dom.buttons[i]? with
  | none => rfl
  | some btn =>
    show (updateButtonsUI dom.buttons _).length = _
    exact updateButtonsUI_length _ _

/-- C6 (amended): after any nonempty sequence of clicks on controls of the group
(each click running the stored-category update and the UI sync), provided the
controls' normalized `data-cat` values are pairwise distinct, exactly one
control carries the selected visual state, its normalized category equals the
stored active category, and every control's `aria-pressed` is `"true"` iff that
control is selected.  Without the distinctness proviso the claim fails: two
controls normalizing to the same key are both selected after a click (see the
counterexample). -/
theorem single_select_invariant_distinct (dom : FilterDom) (st : WidgetState)
    (clicks : List Nat) (hnd : (dom.buttons.map btnNormCat).Nodup)
    (hne : clicks ≠ []) (hvalid : ∀ i ∈ clicks, i < dom.buttons.length) :
    singleSelectInvariant (afterClicks dom st clicks).1 (afterClicks dom st clicks).2 := by
  induction clicks generalizing dom st with
  | nil => exact absurd rfl hne
  | cons i rest ih =>
    have hi : i < dom.buttons.length := hvalid i (by simp)
    cases rest with
    | nil => exact clickStep_invariant dom st i hnd hi
    | cons j rest2 =>
      show singleSelectInvariant
        (afterClicks (clickStep dom st i).1 (clickStep dom st i).2 (j :: rest2)).1
        (afterClicks (clickStep dom st i).1 (clickStep dom st i).2 (j :: rest2)).2
      refine ih (clickStep dom st i).1 (clickStep dom st i).2 ?_ (by simp) ?_
      · rw [clickStep_map_normcat]
        exact hnd
      · intro k hk
        rw [clickStep_length]
        exact hvalid k (List.mem_cons_of_mem _ hk)

/-- Control group for the C6 witness: two controls with distinct normalized keys. -/
def c6WDom : FilterDom :=
  { groupPresent := true,
    buttons :=
      [{ dataCat := some (jstrOf "category-904"), activeClass := true,
         btnPrimary := true, btnOutlinePrimary := false, ariaPressed := strTrue,
         wired := true },
       { dataCat := some (jstrOf "category-3"), activeClass := false,
         btnPrimary := false, btnOutlinePrimary := true, ariaPressed := strFalse,
         wired := true }] }

/-- Initial state for the C6 witness. -/
def c6WSt : WidgetState :=
  { activeCategoryRaw := jstrOf "category-904", activeCategory := jstrOf "904",
    buttonsWired := true }

theorem single_select_invariant_distinct_witness :
    singleSelectInvariant (afterClicks c6WDom c6WSt [1]).1 (afterClicks c6WDom c6WSt [1]).2 :=
  single_select_invariant_distinct c6WDom c6WSt [1] (by decide) (by decide)
    (by
      intro i hi
      rcases List.mem_singleton.mp hi with h
      rw [h]
      decide)

/-- An event source attached to the calendar, identified by its id and url. -/
structure EventSource where
  id : List Nat
  url : List Nat
deriving DecidableEq

/-- The feed identity `FEED_URL = '/event/calendar-feed.json'`. -/
def FEED_URL : List Nat := jstrOf "/event/calendar-feed.json"

/-- `s.url === FEED_URL`. -/
def isFeedSource (s : EventSource) : Bool := decide (s.url = FEED_URL)

/-- Removing `matching[1]`, `matching[2]`, ... from the calendar: keep the first
source whose url matches the feed url and drop every later matching one. -/
def removeLaterFeedSources : List EventSource → Bool → List EventSource
  | [], _ => []
  | s :: rest, seen =>
    if isFeedSource s then
      if seen then removeLaterFeedSources rest true
      else s :: removeLaterFeedSources rest true
    else s :: removeLaterFeedSources rest seen

/-- `ensureSingleEventSource()`: among the currently attached sources, if more
than one matches `FEED_URL`, keep the first and remove the rest; otherwise do
nothing. -/
def ensureSingleEventSource (sources : List EventSource) : List EventSource :=
  if (sources.filter isFeedSource).length > 1 then removeLaterFeedSources sources false
  else sources

theorem removeLater_cons (s : EventSource) (rest : List EventSource) (seen : Bool) :
    removeLaterFeedSources (s :: rest) seen
      = if isFeedSource s = true then
          (if seen = true then removeLaterFeedSources rest true
           else s :: removeLaterFeedSources rest true)
        else s :: removeLaterFeedSources rest seen := rfl

theorem removeLater_filter_feed (l : List EventSource) :
    ∀ seen, (removeLaterFeedSources l seen).filter isFeedSource
      = if seen = true then [] else (l.filter isFeedSource).take 1 := by
  induction l with
  | nil => intro seen; cases seen <;> simp [removeLaterFeedSources]
  | cons s rest ih =>
    intro seen
    cases hf : isFeedSource s with
    | true =>
      cases seen with
      | true =>
        rw [show removeLaterFeedSources (s :: rest) true = removeLaterFeedSources rest true by
          rw [removeLater_cons, if_pos hf, if_pos rfl]]
        rw [ih true, if_pos rfl, if_pos rfl]
      | false =>
        rw [show removeLaterFeedSources (s :: rest) false
            = s :: removeLaterFeedSources rest true by
          rw [removeLater_cons, if_pos hf, if_neg Bool.false_ne_true]]
        rw [List.filter_cons_of_pos hf]
        have h1 := ih true
        rw [if_pos rfl] at h1
        rw [h1, if_neg Bool.false_ne_true, List.filter_cons_of_pos hf]
        rfl
    | false =>
      rw [show removeLaterFeedSources (s :: rest) seen
          = s :: removeLaterFeedSources rest seen by
        rw [removeLater_cons, if_neg (by rw [hf]; exact Bool.false_ne_true)]]
      rw [List.filter_cons_of_neg (by rw [hf]; exact Bool.false_ne_true)]
      cases seen with
      | true =>
        have h1 := ih true
        rw [if_pos rfl] at h1
        rw [h1, if_pos rfl]
      | false =>
        have h1 := ih false
        rw [if_neg Bool.false_ne_true] at h1
        rw [h1, if_neg Bool.false_ne_true,
          List.filter_cons_of_neg (by rw [hf]; exact Bool.false_ne_true)]

theorem removeLater_filter_nonfeed (l : List EventSource) :
    ∀ seen, (removeLaterFeedSources l seen).filter (fun s => !isFeedSource s)
      = l.filter (fun s => !isFeedSource s) := by
  induction l with
  | nil => intro seen; rfl
  | cons s rest ih =>
    intro seen
    cases hf : isFeedSource s with
    | true =>
      cases seen with
      | true =>
        rw [show removeLaterFeedSources (s :: rest) true = removeLaterFeedSources rest true by
          rw [removeLater_cons, if_pos hf, if_pos rfl]]
        rw [ih true]
        simp [List.filter_cons, hf]
      | false =>
        rw [show removeLaterFeedSources (s :: rest) false
            = s :: removeLaterFeedSources rest true by
          rw [removeLater_cons, if_pos hf, if_neg Bool.false_ne_true]]
        simp [List.filter_cons, hf, ih true]
    | false =>
      rw [show removeLaterFeedSources (s :: rest) seen
          = s :: removeLaterFeedSources rest seen by
        rw [removeLater_cons, if_neg (by rw [hf]; exact Bool.false_ne_true)]]
      simp [List.filter_cons, hf, ih seen]

theorem removeLater_sublist (l : List EventSource) :
    ∀ seen, List.Sublist (removeLaterFeedSources l seen) l := by
  induction l with
  | nil => intro seen; simp [removeLaterFeedSources]
  | cons s rest ih =>
    intro seen
    cases hf : isFeedSource s with
    | true =>
      cases seen with
      | true =>
        rw [show removeLaterFeedSources (s :: rest) true = removeLaterFeedSources rest true by
          rw [removeLater_cons, if_pos hf, if_pos rfl]]
        exact List.Sublist.cons s (ih true)
      | false =>
        rw [show removeLaterFeedSources (s :: rest) false
            = s :: removeLaterFeedSources rest true by
          rw [removeLater_cons, if_pos hf, if_neg Bool.false_ne_true]]
        exact List.Sublist.cons₂ s (ih true)
    | false =>
      rw [show removeLaterFeedSources (s :: rest) seen
          = s :: removeLaterFeedSources rest seen by
        rw [removeLater_cons, if_neg (by rw [hf]; exact Bool.false_ne_true)]]
      exact List.Sublist.cons₂ s (ih seen)

theorem ensureSingle_filter_feed (l : List EventSource) :
    (ensureSingleEventSource l).filter isFeedSource = (l.filter isFeedSource).take 1 := by
  unfold ensureSingleEventSource
  by_cases h : (l.filter isFeedSource).length > 1
  · rw [if_pos h]
    have h1 := removeLater_filter_feed l false
    rw [if_neg Bool.false_ne_true] at h1
    exact h1
  · rw [if_neg h]
    have hle : (l.filter isFeedSource).length ≤ 1 := by omega
    exact (List.take_of_length_le hle).symm

theorem ensureSingle_of_le_one {m : List EventSource}
    (h : (m.filter isFeedSource).length ≤ 1) : ensureSingleEventSource m = m := by
  unfold ensureSingleEventSource
  rw [if_neg (by omega)]

/-- C7: `ensureSingleEventSource` keeps the first attached source whose url is
the feed url, removes every subsequent matching source, leaves non-matching
sources untouched (the result is a sublist of the input in the original order),
and is idempotent: a second invocation on the result removes nothing. -/
theorem ensureSingleEventSource_dedup (l : List EventSource) :
    ((ensureSingleEventSource l).filter isFeedSource = (l.filter isFeedSource).take 1)
    ∧ ((ensureSingleEventSource l).filter (fun s => !isFeedSource s)
        = l.filter (fun s => !isFeedSource s))
    ∧ List.Sublist (ensureSingleEventSource l) l
    ∧ ensureSingleEventSource (ensureSingleEventSource l) = ensureSingleEventSource l := by
  refine ⟨ensureSingle_filter_feed l, ?_, ?_, ?_⟩
  · unfold ensureSingleEventSource
    by_cases h : (l.filter isFeedSource).length > 1
    · rw [if_pos h]
      exact removeLater_filter_nonfeed l false
    · rw [if_neg h]
  · unfold ensureSingleEventSource
    by_cases h : (l.filter isFeedSource).length > 1
    · rw [if_pos h]
      exact removeLater_sublist l false
    · rw [if_neg h]
  · apply ensureSingle_of_le_one
    rw [ensureSingle_filter_feed l]
    have := List.length_take 1 (l.filter isFeedSource)
    omega

/-- The page-level state `attach` manipulates: the singleton flag
`window.__fcCalendarInstance`, the `once('fc-init', ...)` marker, how many
`#calendar` elements the document holds, how many widget instances were
constructed, whether click handlers were wired, whether the mutation observer
was started, and whether `#filterEventsGroup` is present. -/
structure PageState where
  fcInstance : Bool
  onceMarked : Bool
  docCalendarCount : Nat
  calendarsConstructed : Nat
  handlersWired : Bool
  observerStarted : Bool
  groupPresent : Bool
deriving DecidableEq

/-- `Drupal.behaviors.calendarWithSingleFilter.attach`: the singleton check, the
`once('fc-init', '#calendar')` gate, the multiple-container abort, then
construction (new calendar, flag set, buttons wired or observer started).  The
returned boolean records whether a widget instance was constructed. -/
def attach (s : PageState) : PageState × Bool :=
  if s.fcInstance then (s, false)
  else if s.onceMarked ∨ s.docCalendarCount = 0 then (s, false)
  else if s.docCalendarCount > 1 then ({ s with onceMarked := true }, false)
  else
    ({ s with
        onceMarked := true,
        calendarsConstructed := s.calendarsConstructed + 1,
        fcInstance := true,
        handlersWired := s.groupPresent,
        observerStarted := !s.groupPresent }, true)

/-- C8: once the process-wide instance flag is set, every further attach attempt
is a no-op that returns false and leaves the whole page state — in particular
the number of constructed widget instances — unchanged. -/
theorem attach_noop_when_instance_exists (s : PageState) (h : s.fcInstance = true) :
    attach s = (s, false) := by
  unfold attach
  rw [if_pos h]

/-- Page state for the C8 witness: an instance already exists. -/
def c8State : PageState :=
  { fcInstance := true, onceMarked := true, docCalendarCount := 1,
    calendarsConstructed := 1, handlersWired := true, observerStarted := false,
    groupPresent := true }

theorem attach_noop_when_instance_exists_witness :
    attach c8State = (c8State, false) :=
  attach_noop_when_instance_exists c8State (by decide)

/-- C9: with more than one `#calendar` container in the document, attach aborts:
it constructs nothing, sets no instance flag, wires no click handlers and starts
no observer. -/
theorem attach_aborts_on_multiple_containers (s : PageState)
    (h1 : s.fcInstance = false) (h2 : s.onceMarked = false)
    (h3 : 1 < s.docCalendarCount) :
    (attach s).2 = false
    ∧ (attach s).1.fcInstance = false
    ∧ (attach s).1.calendarsConstructed = s.calendarsConstructed
    ∧ (attach s).1.handlersWired = s.handlersWired
    ∧ (attach s).1.observerStarted = s.observerStarted := by
  unfold attach
  rw [if_neg (by rw [h1]; exact Bool.false_ne_true)]
  rw [if_neg (by
    intro hor
    rcases hor with hm | hz
    · rw [h2] at hm; exact Bool.false_ne_true hm
    · omega)]
  rw [if_pos h3]
  exact ⟨rfl, h1, rfl, rfl, rfl⟩

/-- Page state for the C9 witness: two `#calendar` containers. -/
def c9State : PageState :=
  { fcInstance := false, onceMarked := false, docCalendarCount := 2,
    calendarsConstructed := 0, handlersWired := false, observerStarted := false,
    groupPresent := true }

theorem attach_aborts_on_multiple_containers_witness :
    (attach c9State).2 = false
    ∧ (attach c9State).1.fcInstance = false
    ∧ (attach c9State).1.calendarsConstructed = c9State.calendarsConstructed
    ∧ (attach c9State).1.handlersWired = c9State.handlersWired
    ∧ (attach c9State).1.observerStarted = c9State.observerStarted :=
  attach_aborts_on_multiple_containers c9State (by decide) (by decide) (by decide)

theorem orAll_of_missing {o : Option (List Nat)} (h : o = none ∨ o = some []) :
    orAll o = strAll := by
  rcases h with h | h
  · rw [h]
    rfl
  · rw [h]
    show (if ([] : List Nat) = [] then strAll else []) = strAll
    rw [if_pos rfl]

theorem normStr_all : normStr strAll = strAll := by decide

/-- C10: a control whose `data-cat` attribute is missing or empty is treated as
category `"all"` everywhere it is consulted: `readDefaultFromMarkup` reports
`"all"` when the active control has no usable `data-cat`, clicking such a
control stores `"all"` (raw and normalized), and the UI sync compares the
control as `"all"`. -/
theorem missing_data_cat_treated_as_all :
    (∀ (dom : FilterDom) (btn : Button), dom.groupPresent = true →
      dom.buttons.find? (fun b => b.activeClass) = some btn →
      (btn.dataCat = none ∨ btn.dataCat = some []) →
      readDefaultFromMarkup dom = some strAll)
    ∧ (∀ (dom : FilterDom) (st : WidgetState) (i : Nat) (btn : Button),
        dom.buttons[i]? = some btn → (btn.dataCat = none ∨ btn.dataCat = some []) →
        (clickStep dom st i).2.activeCategoryRaw = strAll
          ∧ (clickStep dom st i).2.activeCategory = strAll)
    ∧ (∀ (bs : List Button) (A : List Nat) (i : Nat) (h1 : i < bs.length)
        (h2 : i < (updateButtonsUI bs A).length),
        ((bs.get ⟨i, h1⟩).dataCat = none ∨ (bs.get ⟨i, h1⟩).dataCat = some []) →
        ((updateButtonsUI bs A).get ⟨i, h2⟩).activeClass = decide (strAll = A)) := by
  refine ⟨?_, ?_, ?_⟩
  · intro dom btn hg hf hmiss
    unfold readDefaultFromMarkup
    rw [if_pos hg, hf]
    show some (orAll btn.dataCat) = some strAll
    rw [orAll_of_missing hmiss]
  · intro dom st i btn hsome hmiss
    unfold clickStep
    rw [hsome]
    constructor
    · show orAll btn.dataCat = strAll
      exact orAll_of_missing hmiss
    · show normStr (orAll btn.dataCat) = strAll
      rw [orAll_of_missing hmiss, normStr_all]
  · intro bs A i h1 h2 hmiss
    have hget : (updateButtonsUI bs A).get ⟨i, h2⟩
        = { bs.get ⟨i, h1⟩ with
            activeClass := decide (normStr (orAll (bs.get ⟨i, h1⟩).dataCat) = A),
            btnPrimary := decide (normStr (orAll (bs.get ⟨i, h1⟩).dataCat) = A),
            btnOutlinePrimary := !decide (normStr (orAll (bs.get ⟨i, h1⟩).dataCat) = A),
            ariaPressed :=
              if normStr (orAll (bs.get ⟨i, h1⟩).dataCat) = A then strTrue else strFalse } := by
      simp [updateButtonsUI, List.get_eq_getElem, List.getElem_map]
    rw [hget]
    show decide (normStr (orAll (bs.get ⟨i, h1⟩).dataCat) = A) = decide (strAll = A)
    rw [orAll_of_missing hmiss, normStr_all]

/-- Group for the C10 witness: the active control has an empty `data-cat`. -/
def c10Dom : FilterDom :=
  { groupPresent := true,
    buttons :=
      [{ dataCat := some [], activeClass := true, btnPrimary := true,
         btnOutlinePrimary := false, ariaPressed := strTrue, wired := true }] }

/-- State for the C10 witness. -/
def c10St : WidgetState :=
  { activeCategoryRaw := jstrOf "904", activeCategory := jstrOf "904",
    buttonsWired := true }

theorem missing_data_cat_treated_as_all_witness :
    readDefaultFromMarkup c10Dom = some strAll
    ∧ ((clickStep c10Dom c10St 0).2.activeCategoryRaw = strAll
        ∧ (clickStep c10Dom c10St 0).2.activeCategory = strAll)
    ∧ ((updateButtonsUI c10Dom.buttons strAll).get ⟨0, by decide⟩).activeClass
        = decide (strAll = strAll) :=
  ⟨missing_data_cat_treated_as_all.1 c10Dom
      { dataCat := some [], activeClass := true, btnPrimary := true,
        btnOutlinePrimary := false, ariaPressed := strTrue, wired := true }
      (by decide) (by decide) (Or.inr rfl),
    missing_data_cat_treated_as_all.2.1 c10Dom c10St 0
      { dataCat := some [], activeClass := true, btnPrimary := true,
        btnOutlinePrimary := false, ariaPressed := strTrue, wired := true }
      (by decide) (Or.inr rfl),
    missing_data_cat_treated_as_all.2.2 c10Dom.buttons strAll 0 (by decide) (by decide)
      (Or.inr rfl)⟩

end EventsJs
